import Mathlib

/-!
Shallow embedding of the session-orchestration core of the tutoring app:
the `TopicDatabase` entity store (src/services/TopicDatabase.ts, shipped
inside src/services/geminiService.ts), the `analyzeTopicShift` classifier
wrapper (src/services/geminiService.ts), the `AgentOrchestrator.processUserQuery`
pipeline (src/services/AgentOrchestrator.ts) and the
`StudySession.handleSendMessage` turn handler (src/components/Flashcards.tsx).

Modelling conventions:
* JS `Map<string, Topic>` (insertion ordered, keyed by `crypto.randomUUID()`) is
  a `List Topic` in insertion order; fresh ids are modelled by a `nextId`
  counter carried in the store, so freshness of `crypto.randomUUID()` becomes
  the invariant that every stored id is below `nextId`.
* `Date.now()` results are passed in explicitly as a `ts : Nat` argument at
  each creation site.
* In-place mutation of a `Topic` object held in the map is modelled by
  rebuilding the list with the topic at that id replaced.
* External asynchronous calls (classifier LLM call, research call, the
  conversation engine `sendMessage`) are modelled by passing their outcome in
  as an explicit `Except`/value parameter; a thrown exception is the `.error`
  case.  The background enrichment job is fired without await, so its prefix
  up to its first `await` runs synchronously inside the turn and is modelled
  (`enrichSyncPrefix`); the part behind the `await` only appends
  flashcards/quiz items, is detached with unspecified timing, and is outside
  the synchronous turn model.
-/

namespace VibeTutor

/-- Message role, from types.ts (`'user' | 'model'`). -/
inductive Role where
  | user
  | model
deriving DecidableEq, Repr

/-- A research citation, from types.ts (`{ title: string; uri: string }`). -/
structure Source where
  title : String
  uri : String
deriving DecidableEq, Repr

/-- types.ts `ChatMessage`.  The optional `sources` field is a list; the JS
`undefined` corresponds to `[]` (the code only attaches it when nonempty). -/
structure ChatMessage where
  role : Role
  text : String
  sources : List Source := []
deriving DecidableEq, Repr

/-- types.ts `Flashcard`. -/
structure Flashcard where
  front : String
  back : String
deriving DecidableEq, Repr

/-- types.ts `QuizQuestion`. -/
structure QuizQuestion where
  question : String
  options : List String
  correctAnswerIndex : Nat
  explanation : String
deriving DecidableEq, Repr

/-- types.ts `QuestionType`. -/
inductive QuestionType where
  | MCQ
  | SHORT_ANSWER
deriving DecidableEq, Repr

/-- types.ts `ExamQuestion` (optional fields become `Option`). -/
structure ExamQuestion where
  id : String
  qtype : QuestionType
  question : String
  options : List String := []
  correctAnswerIndex : Option Nat := none
  modelAnswer : Option String := none
deriving DecidableEq, Repr

/-- types.ts `Topic`.  `notebookContent` is optional in the interface but every
creation site initialises it to `""`, so it is a plain `String` here. -/
structure Topic where
  id : Nat
  name : String
  timestamp : Nat
  messages : List ChatMessage
  flashcards : List Flashcard
  quizzes : List QuizQuestion
  examQuestions : List ExamQuestion
  isMainTopic : Bool
  notebookContent : String
  knowledgeBase : String
deriving DecidableEq, Repr

/-- JS `String.prototype.toLowerCase()`, modelled characterwise.  (The core
library `String.toLower` is extensionally the same map but is not
kernel-reducible, which would block concrete evaluation.) -/
def strToLower (s : String) : String :=
  ⟨s.data.map Char.toLower⟩

/-- The `TopicDatabase` singleton state (TopicDatabase.ts).  `sessionState` is
not modelled: no store operation other than its getter/setter reads it. -/
structure TopicDatabase where
  topics : List Topic
  currentTopicId : Option Nat
  mainTopicName : Option String
  nextId : Nat
deriving DecidableEq, Repr

namespace TopicDatabase

/-- The freshly constructed store (`private constructor`). -/
def initial : TopicDatabase :=
  { topics := [], currentTopicId := none, mainTopicName := none, nextId := 0 }

/-- `this.topics.get(topicId)`. -/
def getTopic (db : TopicDatabase) (topicId : Nat) : Option Topic :=
  db.topics.find? fun t => t.id = topicId

/-- `this.topics.has(topicId)`. -/
def hasTopic (db : TopicDatabase) (topicId : Nat) : Bool :=
  db.topics.any fun t => t.id = topicId

/-- In-place mutation of the topic object stored under `topicId`. -/
def updateTopic (db : TopicDatabase) (topicId : Nat) (f : Topic → Topic) :
    TopicDatabase :=
  { db with topics := db.topics.map fun t => if t.id = topicId then f t else t }

/-- `createTopic(name, isMain)`: case-insensitive lookup first ("Check if topic
exists loosely"); on a miss a fresh topic is inserted.  `ts` is the value of
`Date.now()` at the call. -/
def createTopic (db : TopicDatabase) (name : String) (isMain : Bool) (ts : Nat) :
    Topic × TopicDatabase :=
  match db.topics.find? (fun t => strToLower t.name = strToLower name) with
  | some existing => (existing, db)
  | none =>
      let newTopic : Topic :=
        { id := db.nextId, name := name, timestamp := ts, messages := [],
          flashcards := [], quizzes := [], examQuestions := [],
          isMainTopic := isMain, notebookContent := "", knowledgeBase := "" }
      (newTopic, { db with topics := db.topics ++ [newTopic],
                           nextId := db.nextId + 1 })

/-- `reset(mainTopicName)`: clear all topics, create the main topic, make it
current. -/
def reset (db : TopicDatabase) (name : String) (ts : Nat) : TopicDatabase :=
  let cleared : TopicDatabase :=
    { topics := [], currentTopicId := db.currentTopicId,
      mainTopicName := some name, nextId := db.nextId }
  let created := cleared.createTopic name true ts
  { created.2 with currentTopicId := some created.1.id }

/-- `setCurrentTopic(topicId)`: set the pointer iff the id exists. -/
def setCurrentTopic (db : TopicDatabase) (topicId : Nat) : TopicDatabase :=
  if db.hasTopic topicId then { db with currentTopicId := some topicId } else db

/-- `getCurrentTopic()`. -/
def getCurrentTopic (db : TopicDatabase) : Option Topic :=
  match db.currentTopicId with
  | none => none
  | some id => db.getTopic id

/-- `getTopicByName(name)`: case-insensitive lookup. -/
def getTopicByName (db : TopicDatabase) (name : String) : Option Topic :=
  db.topics.find? fun t => strToLower t.name = strToLower name

/-- The comparator passed to `Array.prototype.sort` in `getAllTopics`. -/
def cmpTopics (a b : Topic) : Int :=
  if a.isMainTopic then -1
  else if b.isMainTopic then 1
  else (a.timestamp : Int) - (b.timestamp : Int)

/-- The non-strict order induced by the comparator (`cmpTopics a b ≤ 0` means
the sort keeps `a` before `b`). -/
def topicLE (a b : Topic) : Prop :=
  cmpTopics a b ≤ 0

instance : DecidableRel topicLE := fun a b => by
  unfold topicLE; infer_instance

/-- `getAllTopics()`: `Array.from(map.values()).sort(cmp)`.  JS sort is stable
and, for a consistent comparator (which `cmpTopics` is whenever at most one
main topic is stored), any stable sort produces the same list, so a stable
insertion sort is a faithful embedding. -/
def getAllTopics (db : TopicDatabase) : List Topic :=
  db.topics.insertionSort topicLE

/-- `addMessageToTopic(topicId, message)`. -/
def addMessageToTopic (db : TopicDatabase) (topicId : Nat) (message : ChatMessage) :
    TopicDatabase :=
  db.updateTopic topicId fun t => { t with messages := t.messages ++ [message] }

/-- `appendKnowledge(topicId, summary)`: appends with the `"\n- "` separator. -/
def appendKnowledge (db : TopicDatabase) (topicId : Nat) (summary : String) :
    TopicDatabase :=
  db.updateTopic topicId fun t =>
    { t with knowledgeBase := t.knowledgeBase ++ "\n- " ++ summary }

/-- `getKnowledgeBase(topicId)` (missing id gives `""`). -/
def getKnowledgeBase (db : TopicDatabase) (topicId : Nat) : String :=
  ((db.getTopic topicId).map Topic.knowledgeBase).getD ""

/-- `addFlashcardsToTopic(topicId, cards)`. -/
def addFlashcardsToTopic (db : TopicDatabase) (topicId : Nat) (cards : List Flashcard) :
    TopicDatabase :=
  db.updateTopic topicId fun t => { t with flashcards := t.flashcards ++ cards }

/-- `addQuizQuestionsToTopic(topicId, questions)`. -/
def addQuizQuestionsToTopic (db : TopicDatabase) (topicId : Nat)
    (questions : List QuizQuestion) : TopicDatabase :=
  db.updateTopic topicId fun t => { t with quizzes := t.quizzes ++ questions }

/-- `setExamQuestionsForTopic(topicId, questions)` (wholesale replacement). -/
def setExamQuestionsForTopic (db : TopicDatabase) (topicId : Nat)
    (questions : List ExamQuestion) : TopicDatabase :=
  db.updateTopic topicId fun t => { t with examQuestions := questions }

/-- `getExamQuestionsForTopic(topicId)` (missing id gives `[]`). -/
def getExamQuestionsForTopic (db : TopicDatabase) (topicId : Nat) : List ExamQuestion :=
  ((db.getTopic topicId).map Topic.examQuestions).getD []

/-- `updateNotebookContent(topicId, content)` (last write wins). -/
def updateNotebookContent (db : TopicDatabase) (topicId : Nat) (content : String) :
    TopicDatabase :=
  db.updateTopic topicId fun t => { t with notebookContent := content }

/-- Result shape of `getTopicContent`. -/
structure TopicContent where
  flashcards : List Flashcard
  quizzes : List QuizQuestion
  examQuestions : List ExamQuestion
  notebookContent : String
  knowledgeBase : String
deriving DecidableEq, Repr

/-- `getTopicContent(topicId)`: read-only bundle with empty defaults. -/
def getTopicContent (db : TopicDatabase) (topicId : Nat) : TopicContent :=
  let topic := db.getTopic topicId
  { flashcards := (topic.map Topic.flashcards).getD []
    quizzes := (topic.map Topic.quizzes).getD []
    examQuestions := (topic.map Topic.examQuestions).getD []
    notebookContent := (topic.map Topic.notebookContent).getD ""
    knowledgeBase := (topic.map Topic.knowledgeBase).getD "" }

end TopicDatabase

/-- One public mutating store operation, with the `Date.now()` reading of the
creation sites as an explicit argument. -/
inductive StoreOp where
  | reset (name : String) (ts : Nat)
  | create (name : String) (isMain : Bool) (ts : Nat)
  | setCurrent (topicId : Nat)
  | addMessage (topicId : Nat) (message : ChatMessage)
  | appendKnowledge (topicId : Nat) (summary : String)
  | addFlashcards (topicId : Nat) (cards : List Flashcard)
  | addQuizzes (topicId : Nat) (questions : List QuizQuestion)
  | setExamQuestions (topicId : Nat) (questions : List ExamQuestion)
  | setNotebook (topicId : Nat) (content : String)
deriving DecidableEq, Repr

/-- Interpreting one public mutating store operation. -/
def applyOp (db : TopicDatabase) : StoreOp → TopicDatabase
  | .reset name ts => db.reset name ts
  | .create name isMain ts => (db.createTopic name isMain ts).2
  | .setCurrent topicId => db.setCurrentTopic topicId
  | .addMessage topicId message => db.addMessageToTopic topicId message
  | .appendKnowledge topicId summary => db.appendKnowledge topicId summary
  | .addFlashcards topicId cards => db.addFlashcardsToTopic topicId cards
  | .addQuizzes topicId questions => db.addQuizQuestionsToTopic topicId questions
  | .setExamQuestions topicId questions => db.setExamQuestionsForTopic topicId questions
  | .setNotebook topicId content => db.updateNotebookContent topicId content

/-- Interpreting a sequence of public mutating store operations. -/
def applyOps (db : TopicDatabase) (ops : List StoreOp) : TopicDatabase :=
  ops.foldl applyOp db

/-- Number of stored topics flagged as main. -/
def mainCount (db : TopicDatabase) : Nat :=
  (db.topics.filter fun t => t.isMainTopic).length

/-- No two stored topics have names equal up to case. -/
def NoDupNamesCI (db : TopicDatabase) : Prop :=
  (db.topics.map fun t => strToLower t.name).Nodup

/-- Ordered concatenation of a list of strings. -/
def concatAll : List String → String
  | [] => ""
  | s :: rest => s ++ concatAll rest

section ListHelpers

variable {α : Type}

theorem find?_map_pred (g : α → α) (p : α → Bool) (hg : ∀ a, p (g a) = p a) :
    ∀ l : List α, (l.map g).find? p = (l.find? p).map g := by
  intro l
  induction l with
  | nil => simp
  | cons a l ih =>
    simp only [List.map_cons]
    cases hp : p a with
    | false =>
        rw [List.find?_cons_of_neg _ (by rw [hg a, hp]; simp),
          List.find?_cons_of_neg _ (by rw [hp]; simp), ih]
    | true =>
        rw [List.find?_cons_of_pos _ (by rw [hg a, hp]),
          List.find?_cons_of_pos _ hp, Option.map_some']

theorem map_eq_self_of_fix (g : α → α) :
    ∀ l : List α, (∀ a ∈ l, g a = a) → l.map g = l := by
  intro l
  induction l with
  | nil => intro _; simp
  | cons a l ih =>
    intro h
    simp only [List.map_cons, h a (by simp)]
    rw [ih fun x hx => h x (List.mem_cons_of_mem _ hx)]

end ListHelpers

namespace TopicDatabase

theorem getTopic_updateTopic_self (db : TopicDatabase) (topicId : Nat)
    (f : Topic → Topic) (hf : ∀ t, (f t).id = t.id) :
    (db.updateTopic topicId f).getTopic topicId = (db.getTopic topicId).map f := by
  unfold getTopic updateTopic
  rw [find?_map_pred _ _ (fun t => by by_cases h : t.id = topicId <;> simp [h, hf t])]
  cases hfind : db.topics.find? fun t => t.id = topicId with
  | none => simp
  | some t =>
      have ht : t.id = topicId := by
        have := List.find?_some hfind
        simpa using this
      simp [ht]

theorem getTopic_updateTopic_ne (db : TopicDatabase) (topicId otherId : Nat)
    (f : Topic → Topic) (hf : ∀ t, (f t).id = t.id) (hne : otherId ≠ topicId) :
    (db.updateTopic topicId f).getTopic otherId =
      (db.getTopic otherId).map fun t => if t.id = topicId then f t else t := by
  unfold getTopic updateTopic
  refine find?_map_pred _ _ (fun t => ?_) _
  by_cases h : t.id = topicId
  · simp [h, hf t, Ne.symm hne]
  · simp [h]

theorem updateTopic_of_missing (db : TopicDatabase) (topicId : Nat)
    (f : Topic → Topic) (hmiss : ∀ t ∈ db.topics, t.id ≠ topicId) :
    db.updateTopic topicId f = db := by
  unfold updateTopic
  have : db.topics.map (fun t => if t.id = topicId then f t else t) = db.topics :=
    map_eq_self_of_fix _ _ fun t ht => by simp [hmiss t ht]
  simp [this]

theorem getTopic_of_missing (db : TopicDatabase) (topicId : Nat)
    (hmiss : ∀ t ∈ db.topics, t.id ≠ topicId) :
    db.getTopic topicId = none := by
  unfold getTopic
  rw [List.find?_eq_none]
  intro t ht
  simp [hmiss t ht]

end TopicDatabase

/-- C6: operations addressed to an id that is not in the store are total
no-ops (mutators) or return empty defaults (readers). -/
theorem C6_missing_id_operations (db : TopicDatabase) (topicId : Nat)
    (hmiss : ∀ t ∈ db.topics, t.id ≠ topicId) :
    db.setCurrentTopic topicId = db ∧
    (∀ message, db.addMessageToTopic topicId message = db) ∧
    (∀ summary, db.appendKnowledge topicId summary = db) ∧
    (∀ cards, db.addFlashcardsToTopic topicId cards = db) ∧
    (∀ questions, db.addQuizQuestionsToTopic topicId questions = db) ∧
    (∀ questions, db.setExamQuestionsForTopic topicId questions = db) ∧
    (∀ content, db.updateNotebookContent topicId content = db) ∧
    db.getKnowledgeBase topicId = "" ∧
    db.getExamQuestionsForTopic topicId = [] ∧
    db.getTopicContent topicId =
      { flashcards := [], quizzes := [], examQuestions := [],
        notebookContent := "", knowledgeBase := "" } := by
  have hget : db.getTopic topicId = none := db.getTopic_of_missing topicId hmiss
  refine ⟨?_, ?_, ?_, ?_, ?_, ?_, ?_, ?_, ?_, ?_⟩
  · unfold TopicDatabase.setCurrentTopic TopicDatabase.hasTopic
    rw [if_neg]
    intro h
    rw [List.any_eq_true] at h
    obtain ⟨t, ht, hp⟩ := h
    exact hmiss t ht (by simpa using hp)
  · intro message
    exact db.updateTopic_of_missing topicId _ hmiss
  · intro summary
    exact db.updateTopic_of_missing topicId _ hmiss
  · intro cards
    exact db.updateTopic_of_missing topicId _ hmiss
  · intro questions
    exact db.updateTopic_of_missing topicId _ hmiss
  · intro questions
    exact db.updateTopic_of_missing topicId _ hmiss
  · intro content
    exact db.updateTopic_of_missing topicId _ hmiss
  · unfold TopicDatabase.getKnowledgeBase
    rw [hget]; rfl
  · unfold TopicDatabase.getExamQuestionsForTopic
    rw [hget]; rfl
  · unfold TopicDatabase.getTopicContent
    rw [hget]; rfl

theorem filter_map_comm {α : Type} (g : α → α) (p : α → Bool)
    (h : ∀ a, p (g a) = p a) :
    ∀ l : List α, (l.map g).filter p = (l.filter p).map g := by
  intro l
  induction l with
  | nil => simp
  | cons a l ih =>
    simp only [List.map_cons]
    cases hp : p a with
    | false =>
        rw [List.filter_cons_of_neg (by rw [h a, hp]; simp),
          List.filter_cons_of_neg (by rw [hp]; simp), ih]
    | true =>
        rw [List.filter_cons_of_pos (by rw [h a, hp]),
          List.filter_cons_of_pos hp, List.map_cons, ih]

namespace TopicDatabase

theorem topics_setCurrentTopic (db : TopicDatabase) (topicId : Nat) :
    (db.setCurrentTopic topicId).topics = db.topics := by
  unfold setCurrentTopic
  split <;> rfl

theorem names_updateTopic (db : TopicDatabase) (topicId : Nat) (f : Topic → Topic)
    (hf : ∀ t, (f t).name = t.name) :
    ((db.updateTopic topicId f).topics.map fun t => strToLower t.name) =
      db.topics.map fun t => strToLower t.name := by
  unfold updateTopic
  rw [List.map_map]
  refine List.map_congr_left fun t _ => ?_
  by_cases h : t.id = topicId <;> simp [h, hf]

theorem mainCount_updateTopic (db : TopicDatabase) (topicId : Nat) (f : Topic → Topic)
    (hf : ∀ t, (f t).isMainTopic = t.isMainTopic) :
    mainCount (db.updateTopic topicId f) = mainCount db := by
  unfold mainCount updateTopic
  rw [filter_map_comm _ _ (fun t => by by_cases h : t.id = topicId <;> simp [h, hf]),
    List.length_map]

/-- `reset` leaves exactly the freshly created main topic in the store. -/
theorem reset_topics (db : TopicDatabase) (name : String) (ts : Nat) :
    (db.reset name ts).topics =
      [Topic.mk db.nextId name ts [] [] [] [] true "" ""] := rfl

/-- On a case-insensitive hit, `createTopic` returns an existing topic and
changes nothing. -/
theorem createTopic_hit (db : TopicDatabase) (name : String) (isMain : Bool)
    (ts : Nat) (t : Topic)
    (hfind : db.topics.find? (fun x => strToLower x.name = strToLower name) = some t) :
    db.createTopic name isMain ts = (t, db) := by
  unfold createTopic
  rw [hfind]

theorem find?_nameCI_of_nodup (l : List Topic) (name : String)
    (hnd : (l.map fun t => strToLower t.name).Nodup) (t : Topic) (ht : t ∈ l)
    (hmatch : strToLower t.name = strToLower name) :
    l.find? (fun x => strToLower x.name = strToLower name) = some t := by
  induction l with
  | nil => cases ht
  | cons a rest ih =>
    by_cases ha : strToLower a.name = strToLower name
    · rw [List.find?_cons_of_pos _ (by simpa using ha)]
      rcases List.mem_cons.mp ht with h | h
      · rw [h]
      · exfalso
        have : strToLower a.name ∈ rest.map fun t => strToLower t.name := by
          rw [ha, ← hmatch]
          exact List.mem_map_of_mem _ h
        exact (List.nodup_cons.mp hnd).1 this
    · rw [List.find?_cons_of_neg _ (by simpa using ha)]
      rcases List.mem_cons.mp ht with h | h
      · exact absurd (h ▸ hmatch) ha
      · exact ih (List.nodup_cons.mp hnd).2 h

end TopicDatabase

/-- `NoDupNamesCI` survives an in-place topic mutation that keeps names. -/
theorem noDupNamesCI_updateTopic (db : TopicDatabase) (topicId : Nat)
    (f : Topic → Topic) (hf : ∀ t, (f t).name = t.name) (h : NoDupNamesCI db) :
    NoDupNamesCI (db.updateTopic topicId f) := by
  unfold NoDupNamesCI
  rw [TopicDatabase.names_updateTopic db topicId f hf]
  exact h

/-- `NoDupNamesCI` is preserved by every public mutating store operation. -/
theorem namesCI_applyOp (db : TopicDatabase) (op : StoreOp)
    (h : NoDupNamesCI db) : NoDupNamesCI (applyOp db op) := by
  cases op with
  | reset name ts =>
      show NoDupNamesCI (db.reset name ts)
      unfold NoDupNamesCI
      rw [db.reset_topics name ts]
      simp
  | create name isMain ts =>
      show NoDupNamesCI (db.createTopic name isMain ts).2
      unfold TopicDatabase.createTopic
      cases hfind : db.topics.find? (fun x => strToLower x.name = strToLower name) with
      | some t => exact h
      | none =>
          unfold NoDupNamesCI at h ⊢
          simp only [List.map_append, List.map_cons, List.map_nil]
          rw [List.nodup_append]
          refine ⟨h, List.nodup_singleton _, ?_⟩
          intro x hx hx1
          simp only [List.mem_singleton] at hx1
          obtain ⟨u, hu, hux⟩ := List.mem_map.mp hx
          rw [List.find?_eq_none] at hfind
          exact hfind u hu (by simp [hux ▸ hx1])
  | setCurrent topicId =>
      unfold NoDupNamesCI
      rw [show (applyOp db (.setCurrent topicId)).topics =
        (db.setCurrentTopic topicId).topics from rfl, db.topics_setCurrentTopic]
      exact h
  | addMessage topicId m =>
      exact noDupNamesCI_updateTopic db topicId
        (fun t => { t with messages := t.messages ++ [m] }) (fun _ => rfl) h
  | appendKnowledge topicId s =>
      exact noDupNamesCI_updateTopic db topicId
        (fun t => { t with knowledgeBase := t.knowledgeBase ++ "\n- " ++ s }) (fun _ => rfl) h
  | addFlashcards topicId cs =>
      exact noDupNamesCI_updateTopic db topicId
        (fun t => { t with flashcards := t.flashcards ++ cs }) (fun _ => rfl) h
  | addQuizzes topicId qs =>
      exact noDupNamesCI_updateTopic db topicId
        (fun t => { t with quizzes := t.quizzes ++ qs }) (fun _ => rfl) h
  | setExamQuestions topicId qs =>
      exact noDupNamesCI_updateTopic db topicId
        (fun t => { t with examQuestions := qs }) (fun _ => rfl) h
  | setNotebook topicId c =>
      exact noDupNamesCI_updateTopic db topicId
        (fun t => { t with notebookContent := c }) (fun _ => rfl) h

theorem namesCI_applyOps (ops : List StoreOp) :
    ∀ db : TopicDatabase, NoDupNamesCI db → NoDupNamesCI (applyOps db ops) := by
  induction ops with
  | nil => exact fun db h => h
  | cons op rest ih => exact fun db h => ih (applyOp db op) (namesCI_applyOp db op h)

/-- C2: `createTopic` (the spec's `createOrGet`) is case-insensitively
deduplicating: on a store without case-duplicate names, a creation request for
a name matching an existing topic up to case returns that very topic and
leaves the store untouched, and no sequence of public operations ever
produces two topics with names equal up to case. -/
theorem C2_createOrGet_dedup :
    (∀ (db : TopicDatabase) (name : String) (isMain : Bool) (ts : Nat) (t : Topic),
      NoDupNamesCI db → t ∈ db.topics → strToLower t.name = strToLower name →
      db.createTopic name isMain ts = (t, db)) ∧
    (∀ ops : List StoreOp, NoDupNamesCI (applyOps TopicDatabase.initial ops)) := by
  constructor
  · intro db name isMain ts t hnd ht hmatch
    exact db.createTopic_hit name isMain ts t
      (TopicDatabase.find?_nameCI_of_nodup db.topics name hnd t ht hmatch)
  · intro ops
    exact namesCI_applyOps ops TopicDatabase.initial (by simp [NoDupNamesCI, TopicDatabase.initial])

/-- Witness for C2: a second creation of "quantum physics" returns the
existing "Quantum Physics" topic unchanged. -/
theorem C2_createOrGet_dedup_witness :
    (NoDupNamesCI (TopicDatabase.initial.reset "Quantum Physics" 0) ∧
      Topic.mk 0 "Quantum Physics" 0 [] [] [] [] true "" "" ∈
        (TopicDatabase.initial.reset "Quantum Physics" 0).topics ∧
      (strToLower "Quantum Physics" = strToLower "quantum physics")) ∧
    (TopicDatabase.initial.reset "Quantum Physics" 0).createTopic
        "quantum physics" false 5 =
      (Topic.mk 0 "Quantum Physics" 0 [] [] [] [] true "" "",
        TopicDatabase.initial.reset "Quantum Physics" 0) := by
  refine ⟨⟨?_, ?_, ?_⟩, ?_⟩
  · unfold NoDupNamesCI
    decide
  · decide
  · decide
  · exact C2_createOrGet_dedup.1 (TopicDatabase.initial.reset "Quantum Physics" 0)
      "quantum physics" false 5 _ (by unfold NoDupNamesCI; decide) (by decide) (by decide)

namespace TopicDatabase

theorem topicLE_of_main {a b : Topic} (ha : a.isMainTopic = true) : topicLE a b := by
  simp [topicLE, cmpTopics, ha]

theorem not_topicLE_of_main {a b : Topic} (ha : a.isMainTopic = false)
    (hb : b.isMainTopic = true) : ¬ topicLE a b := by
  simp [topicLE, cmpTopics, ha, hb]

theorem topicLE_nonmain {a b : Topic} (ha : a.isMainTopic = false)
    (hb : b.isMainTopic = false) : topicLE a b ↔ a.timestamp ≤ b.timestamp := by
  simp only [topicLE, cmpTopics, ha, hb, if_false, Bool.false_eq_true]
  omega

end TopicDatabase

instance : IsTotal Topic TopicDatabase.topicLE := by
  constructor
  intro a b
  cases ha : a.isMainTopic with
  | true => exact Or.inl (TopicDatabase.topicLE_of_main ha)
  | false =>
      cases hb : b.isMainTopic with
      | true => exact Or.inr (TopicDatabase.topicLE_of_main hb)
      | false =>
          rw [TopicDatabase.topicLE_nonmain ha hb, TopicDatabase.topicLE_nonmain hb ha]
          omega

instance : IsTrans Topic TopicDatabase.topicLE := by
  constructor
  intro a b c hab hbc
  cases ha : a.isMainTopic with
  | true => exact TopicDatabase.topicLE_of_main ha
  | false =>
      cases hb : b.isMainTopic with
      | true => exact absurd hab (TopicDatabase.not_topicLE_of_main ha hb)
      | false =>
          cases hc : c.isMainTopic with
          | true => exact absurd hbc (TopicDatabase.not_topicLE_of_main hb hc)
          | false =>
              rw [TopicDatabase.topicLE_nonmain ha hb] at hab
              rw [TopicDatabase.topicLE_nonmain hb hc] at hbc
              rw [TopicDatabase.topicLE_nonmain ha hc]
              omega

theorem filter_length_one_unique {α : Type} (p : α → Bool) (l : List α)
    (h : (l.filter p).length = 1) :
    ∀ a ∈ l, p a → ∀ b ∈ l, p b → a = b := by
  intro a ha hpa b hb hpb
  obtain ⟨m, hm⟩ := List.length_eq_one.mp h
  have ham : a ∈ l.filter p := List.mem_filter.mpr ⟨ha, hpa⟩
  have hbm : b ∈ l.filter p := List.mem_filter.mpr ⟨hb, hpb⟩
  rw [hm, List.mem_singleton] at ham hbm
  rw [ham, hbm]

theorem topicLE_antisymm_local (l : List Topic)
    (hone : (l.filter fun t => t.isMainTopic).length = 1)
    (hts : ((l.filter fun t => !t.isMainTopic).map Topic.timestamp).Nodup) :
    ∀ a ∈ l, ∀ b ∈ l, TopicDatabase.topicLE a b → TopicDatabase.topicLE b a →
      a = b := by
  intro a ha b hb hab hba
  cases hma : a.isMainTopic with
  | true =>
      cases hmb : b.isMainTopic with
      | true => exact filter_length_one_unique _ l hone a ha hma b hb hmb
      | false => exact absurd hba (TopicDatabase.not_topicLE_of_main hmb hma)
  | false =>
      cases hmb : b.isMainTopic with
      | true => exact absurd hab (TopicDatabase.not_topicLE_of_main hma hmb)
      | false =>
          rw [TopicDatabase.topicLE_nonmain hma hmb] at hab
          rw [TopicDatabase.topicLE_nonmain hmb hma] at hba
          have hts_eq : a.timestamp = b.timestamp := Nat.le_antisymm hab hba
          exact List.inj_on_of_nodup_map hts
            (List.mem_filter.mpr ⟨ha, by simp [hma]⟩)
            (List.mem_filter.mpr ⟨hb, by simp [hmb]⟩) hts_eq

theorem sorted_perm_eq_local {α : Type} {r : α → α → Prop} :
    ∀ (l₁ l₂ : List α), l₁.Perm l₂ → l₁.Sorted r → l₂.Sorted r →
      (∀ a ∈ l₁, ∀ b ∈ l₁, r a b → r b a → a = b) → l₁ = l₂ := by
  intro l₁
  induction l₁ with
  | nil => exact fun l₂ hp _ _ _ => hp.nil_eq
  | cons a t₁ ih =>
      intro l₂ hp hs₁ hs₂ hanti
      cases l₂ with
      | nil => exact absurd hp.symm.nil_eq (by simp)
      | cons b t₂ =>
          have hab : a = b := by
            by_contra hne
            have haIn : a ∈ t₂ := by
              have := hp.subset (List.mem_cons_self a t₁)
              rcases List.mem_cons.mp this with h | h
              · exact absurd h hne
              · exact h
            have hbIn : b ∈ t₁ := by
              have := hp.symm.subset (List.mem_cons_self b t₂)
              rcases List.mem_cons.mp this with h | h
              · exact absurd h.symm hne
              · exact h
            have hrab : r a b := (List.sorted_cons.mp hs₁).1 b hbIn
            have hrba : r b a := (List.sorted_cons.mp hs₂).1 a haIn
            exact hne (hanti a (List.mem_cons_self a t₁) b
              (List.mem_cons_of_mem _ hbIn) hrab hrba)
          subst hab
          have hp' : t₁.Perm t₂ := hp.cons_inv
          have := ih t₂ hp' (List.sorted_cons.mp hs₁).2 (List.sorted_cons.mp hs₂).2
            (fun x hx y hy => hanti x (List.mem_cons_of_mem _ hx) y
              (List.mem_cons_of_mem _ hy))
          rw [this]

/-- C4: with exactly one main topic and pairwise distinct creation timestamps
among the non-main topics, `getAllTopics` returns a permutation of the store
that starts with the main topic, continues with the non-main topics in
strictly ascending creation time, and does not depend on the insertion order
of the backing map. -/
theorem C4_getAllTopics_ordering (db : TopicDatabase) (A : Topic)
    (hA : A ∈ db.topics) (hAmain : A.isMainTopic = true)
    (hone : (db.topics.filter fun t => t.isMainTopic).length = 1)
    (hts : ((db.topics.filter fun t => !t.isMainTopic).map Topic.timestamp).Nodup) :
    (db.getAllTopics).Perm db.topics ∧
    (∃ rest, db.getAllTopics = A :: rest ∧
      (∀ t ∈ rest, t.isMainTopic = false) ∧
      rest.Pairwise fun x y => x.timestamp < y.timestamp) ∧
    (∀ l' : List Topic, l'.Perm db.topics →
      TopicDatabase.getAllTopics { db with topics := l' } = db.getAllTopics) := by
  have hperm : (db.getAllTopics).Perm db.topics :=
    List.perm_insertionSort TopicDatabase.topicLE db.topics
  have hsorted : (db.getAllTopics).Sorted TopicDatabase.topicLE :=
    List.sorted_insertionSort TopicDatabase.topicLE db.topics
  have hanti := topicLE_antisymm_local db.topics hone hts
  refine ⟨hperm, ?_, ?_⟩
  · -- decomposition: the sorted list is A followed by the sorted non-mains
    have hAin : A ∈ db.getAllTopics := hperm.mem_iff.mpr hA
    cases hL : db.getAllTopics with
    | nil => rw [hL] at hAin; cases hAin
    | cons c rest =>
        rw [hL] at hAin hperm hsorted
        have hcmain : c.isMainTopic = true := by
          rcases List.mem_cons.mp hAin with h | h
          · rw [← h]
            exact hAmain
          · by_contra hc
            have hc' : c.isMainTopic = false := Bool.eq_false_iff.mpr hc
            exact (TopicDatabase.not_topicLE_of_main hc' hAmain)
              ((List.sorted_cons.mp hsorted).1 A h)
        have hcA : c = A :=
          filter_length_one_unique _ db.topics hone c
            (hperm.subset (List.mem_cons_self c rest)) hcmain A hA hAmain
        have hfc : ((c :: rest).filter fun t => t.isMainTopic).length = 1 := by
          rw [(hperm.filter fun t => t.isMainTopic).length_eq]
          exact hone
        rw [List.filter_cons_of_pos hcmain] at hfc
        have hzero : (rest.filter fun t => t.isMainTopic) = [] :=
          List.length_eq_zero.mp (Nat.succ_injective hfc)
        have hrest_nonmain : ∀ t ∈ rest, t.isMainTopic = false := by
          intro t htr
          by_contra h
          have h' : t.isMainTopic = true := by
            cases hh : t.isMainTopic
            · exact absurd hh h
            · rfl
          have : t ∈ rest.filter fun t => t.isMainTopic :=
            List.mem_filter.mpr ⟨htr, h'⟩
          rw [hzero] at this
          cases this
        have hsr : rest.Sorted TopicDatabase.topicLE :=
          (List.sorted_cons.mp hsorted).2
        have hrest_ts : (rest.map Topic.timestamp).Nodup := by
          have hfilter : ((c :: rest).filter fun t => !t.isMainTopic) = rest := by
            rw [List.filter_cons_of_neg (by simp [hcmain])]
            exact List.filter_eq_self.mpr fun t ht => by
              simp [hrest_nonmain t ht]
          have hpermf := hperm.filter fun t => !t.isMainTopic
          rw [hfilter] at hpermf
          exact ((hpermf.map Topic.timestamp).nodup_iff).mpr hts
        have hne : rest.Pairwise fun x y => x.timestamp ≠ y.timestamp :=
          List.pairwise_map.mp hrest_ts
        have hle : rest.Pairwise fun x y => x.timestamp ≤ y.timestamp := by
          refine hsr.imp_of_mem fun {x y} hx hy hxy => ?_
          exact (TopicDatabase.topicLE_nonmain (hrest_nonmain x hx)
            (hrest_nonmain y hy)).mp hxy
        refine ⟨rest, by rw [hcA], hrest_nonmain, ?_⟩
        exact (hle.and hne).imp fun h => Nat.lt_of_le_of_ne h.1 h.2
  · -- insertion-order independence
    intro l' hperm'
    refine sorted_perm_eq_local _ _ ?_ ?_ hsorted ?_
    · exact (List.perm_insertionSort TopicDatabase.topicLE l').trans
        (hperm'.trans hperm.symm)
    · exact List.sorted_insertionSort TopicDatabase.topicLE l'
    · intro a haIn b hbIn
      have haL : a ∈ db.topics := hperm'.subset
        ((List.perm_insertionSort TopicDatabase.topicLE l').subset haIn)
      have hbL : b ∈ db.topics := hperm'.subset
        ((List.perm_insertionSort TopicDatabase.topicLE l').subset hbIn)
      exact hanti a haL b hbL

/-- Witness for C4: main topic inserted first, then two non-main topics with
out-of-order timestamps. -/
theorem C4_getAllTopics_ordering_witness :
    (Topic.mk 0 "Physics" 0 [] [] [] [] true "" "" ∈
      (TopicDatabase.mk
        [Topic.mk 0 "Physics" 0 [] [] [] [] true "" "",
         Topic.mk 1 "Zeta" 9 [] [] [] [] false "" "",
         Topic.mk 2 "Alpha" 4 [] [] [] [] false "" ""] (some 0) (some "Physics") 3).topics) ∧
    (TopicDatabase.mk
        [Topic.mk 0 "Physics" 0 [] [] [] [] true "" "",
         Topic.mk 1 "Zeta" 9 [] [] [] [] false "" "",
         Topic.mk 2 "Alpha" 4 [] [] [] [] false "" ""] (some 0) (some "Physics") 3).getAllTopics.Perm
      (TopicDatabase.mk
        [Topic.mk 0 "Physics" 0 [] [] [] [] true "" "",
         Topic.mk 1 "Zeta" 9 [] [] [] [] false "" "",
         Topic.mk 2 "Alpha" 4 [] [] [] [] false "" ""] (some 0) (some "Physics") 3).topics := by
  refine ⟨by decide, ?_⟩
  exact (C4_getAllTopics_ordering
    (TopicDatabase.mk
        [Topic.mk 0 "Physics" 0 [] [] [] [] true "" "",
         Topic.mk 1 "Zeta" 9 [] [] [] [] false "" "",
         Topic.mk 2 "Alpha" 4 [] [] [] [] false "" ""] (some 0) (some "Physics") 3)
    (Topic.mk 0 "Physics" 0 [] [] [] [] true "" "")
    (by decide) (by decide) (by decide) (by decide)).1

/-- A public mutating operation that never requests a main-topic creation:
every call site in the application outside `reset` passes `isMain = false`. -/
def SafeOp : StoreOp → Prop
  | .create _ isMain _ => isMain = false
  | _ => True

instance : DecidablePred SafeOp := by
  intro op
  cases op <;> dsimp [SafeOp] <;> infer_instance

theorem mainCount_reset (db : TopicDatabase) (name : String) (ts : Nat) :
    mainCount (db.reset name ts) = 1 := by
  unfold mainCount
  rw [db.reset_topics name ts]
  rfl

theorem mainCount_applyOp_safe (db : TopicDatabase) (op : StoreOp)
    (hsafe : SafeOp op) (h : mainCount db = 1) : mainCount (applyOp db op) = 1 := by
  cases op with
  | reset name ts => exact mainCount_reset db name ts
  | create name isMain ts =>
      have hm : isMain = false := hsafe
      subst hm
      show mainCount (db.createTopic name false ts).2 = 1
      unfold TopicDatabase.createTopic
      cases hfind : db.topics.find? (fun x => strToLower x.name = strToLower name) with
      | some t => exact h
      | none =>
          unfold mainCount at h ⊢
          rw [List.filter_append]
          simpa using h
  | setCurrent topicId =>
      show mainCount (db.setCurrentTopic topicId) = 1
      unfold mainCount
      rw [db.topics_setCurrentTopic]
      exact h
  | addMessage topicId m =>
      exact (TopicDatabase.mainCount_updateTopic db topicId
        (fun t => { t with messages := t.messages ++ [m] }) (fun _ => rfl)).trans h
  | appendKnowledge topicId s =>
      exact (TopicDatabase.mainCount_updateTopic db topicId
        (fun t => { t with knowledgeBase := t.knowledgeBase ++ "\n- " ++ s })
        (fun _ => rfl)).trans h
  | addFlashcards topicId cs =>
      exact (TopicDatabase.mainCount_updateTopic db topicId
        (fun t => { t with flashcards := t.flashcards ++ cs }) (fun _ => rfl)).trans h
  | addQuizzes topicId qs =>
      exact (TopicDatabase.mainCount_updateTopic db topicId
        (fun t => { t with quizzes := t.quizzes ++ qs }) (fun _ => rfl)).trans h
  | setExamQuestions topicId qs =>
      exact (TopicDatabase.mainCount_updateTopic db topicId
        (fun t => { t with examQuestions := qs }) (fun _ => rfl)).trans h
  | setNotebook topicId c =>
      exact (TopicDatabase.mainCount_updateTopic db topicId
        (fun t => { t with notebookContent := c }) (fun _ => rfl)).trans h

theorem mainCount_applyOps_safe (ops : List StoreOp) :
    ∀ db : TopicDatabase, (∀ op ∈ ops, SafeOp op) → mainCount db = 1 →
      mainCount (applyOps db ops) = 1 := by
  induction ops with
  | nil => exact fun db _ h => h
  | cons op rest ih =>
      intro db hsafe h
      exact ih (applyOp db op)
        (fun o ho => hsafe o (List.mem_cons_of_mem _ ho))
        (mainCount_applyOp_safe db op (hsafe op (List.mem_cons_self _ _)) h)

/-- C3 counterexample: the claim quantifies over every sequence of public
store operations, but the public `createTopic` accepts `isMain = true`; after
`reset("Biology")`, the public call `createTopic("Chemistry", true)` leaves a
store with two main topics, so "precisely one main topic exists" fails. -/
theorem C3_single_main_counterexample :
    mainCount (applyOps TopicDatabase.initial
        [StoreOp.reset "Biology" 0, StoreOp.create "Chemistry" true 1]) = 2 ∧
    mainCount (applyOps TopicDatabase.initial
        [StoreOp.reset "Biology" 0, StoreOp.create "Chemistry" true 1]) ≠ 1 := by
  constructor
  · decide
  · decide

/-- C3 (amended): `reset(name)` produces a store whose single topic is main
and named `name`, and every subsequent sequence of public store operations in
which `createTopic` is only ever called with `isMain = false` (as every
application call site outside `reset` does) preserves the property that
precisely one main topic exists. -/
theorem C3_single_main_amended (db : TopicDatabase) (name : String) (ts : Nat)
    (ops : List StoreOp) (hsafe : ∀ op ∈ ops, SafeOp op) :
    ((db.reset name ts).topics.map fun t => (t.name, t.isMainTopic)) = [(name, true)] ∧
    mainCount (db.reset name ts) = 1 ∧
    mainCount (applyOps (db.reset name ts) ops) = 1 := by
  refine ⟨?_, mainCount_reset db name ts, ?_⟩
  · rw [db.reset_topics name ts]
    rfl
  · exact mainCount_applyOps_safe ops _ hsafe (mainCount_reset db name ts)

/-- Witness for C3 (amended) with a concrete safe operation sequence. -/
theorem C3_single_main_amended_witness :
    (∀ op ∈ [StoreOp.create "Chemistry" false 1, StoreOp.setCurrent 1,
        StoreOp.appendKnowledge 0 "atoms"], SafeOp op) ∧
    mainCount (applyOps (TopicDatabase.initial.reset "Biology" 0)
      [StoreOp.create "Chemistry" false 1, StoreOp.setCurrent 1,
        StoreOp.appendKnowledge 0 "atoms"]) = 1 := by
  refine ⟨by decide, ?_⟩
  exact (C3_single_main_amended TopicDatabase.initial "Biology" 0
    [StoreOp.create "Chemistry" false 1, StoreOp.setCurrent 1,
      StoreOp.appendKnowledge 0 "atoms"] (by decide)).2.2

theorem concatAll_append (l₁ l₂ : List String) :
    concatAll (l₁ ++ l₂) = concatAll l₁ ++ concatAll l₂ := by
  induction l₁ with
  | nil =>
      show concatAll l₂ = "" ++ concatAll l₂
      rw [String.empty_append]
  | cons s rest ih =>
      show s ++ concatAll (rest ++ l₂) = (s ++ concatAll rest) ++ concatAll l₂
      rw [ih, String.append_assoc]

theorem getTopic_appendKnowledge_fold (topicId : Nat) :
    ∀ (texts : List String) (db : TopicDatabase) (t : Topic),
      db.getTopic topicId = some t →
      (applyOps db (texts.map (StoreOp.appendKnowledge topicId))).getTopic topicId =
        some { t with knowledgeBase :=
          t.knowledgeBase ++ concatAll (texts.map fun s => "\n- " ++ s) } := by
  intro texts
  induction texts with
  | nil =>
      intro db t ht
      simpa [applyOps, concatAll] using ht
  | cons s rest ih =>
      intro db t ht
      have hstep : (db.appendKnowledge topicId s).getTopic topicId =
          some { t with knowledgeBase := t.knowledgeBase ++ "\n- " ++ s } := by
        have h := TopicDatabase.getTopic_updateTopic_self db topicId
          (fun u => { u with knowledgeBase := u.knowledgeBase ++ "\n- " ++ s })
          (fun _ => rfl)
        unfold TopicDatabase.appendKnowledge
        rw [h, ht]
        rfl
      have hrest := ih (db.appendKnowledge topicId s) _ hstep
      simp only [applyOps, applyOp, List.map_cons, List.foldl_cons] at hrest ⊢
      rw [hrest]
      simp only [concatAll, Option.some.injEq, Topic.mk.injEq, String.append_assoc,
        and_true, true_and]

/-- C5: a sequence of `appendKnowledge` calls on an existing topic yields the
initial knowledge base followed by the separator-prefixed texts in call order,
and the knowledge-base length never shrinks along the sequence. -/
theorem C5_appendKnowledge_accumulates (db : TopicDatabase) (topicId : Nat)
    (t : Topic) (ht : db.getTopic topicId = some t) (texts : List String) :
    (applyOps db (texts.map (StoreOp.appendKnowledge topicId))).getKnowledgeBase topicId =
      t.knowledgeBase ++ concatAll (texts.map fun s => "\n- " ++ s) ∧
    (∀ l₁ l₂, texts = l₁ ++ l₂ →
      ((applyOps db (l₁.map (StoreOp.appendKnowledge topicId))).getKnowledgeBase
          topicId).length ≤
        ((applyOps db (texts.map (StoreOp.appendKnowledge topicId))).getKnowledgeBase
          topicId).length) := by
  constructor
  · unfold TopicDatabase.getKnowledgeBase
    rw [getTopic_appendKnowledge_fold topicId texts db t ht]
    rfl
  · intro l₁ l₂ hsplit
    unfold TopicDatabase.getKnowledgeBase
    rw [getTopic_appendKnowledge_fold topicId texts db t ht,
      getTopic_appendKnowledge_fold topicId l₁ db t ht]
    subst hsplit
    simp only [Option.map_some', Option.getD_some]
    rw [List.map_append, concatAll_append]
    simp only [String.length_append]
    omega

/-- Witness for C5: two appends on the main topic of a fresh store. -/
theorem C5_appendKnowledge_accumulates_witness :
    ((TopicDatabase.initial.reset "Biology" 0).getTopic 0 =
        some (Topic.mk 0 "Biology" 0 [] [] [] [] true "" "")) ∧
    (applyOps (TopicDatabase.initial.reset "Biology" 0)
        ([ "cells", "mitosis" ].map (StoreOp.appendKnowledge 0))).getKnowledgeBase 0 =
      "" ++ concatAll ([ "cells", "mitosis" ].map fun s => "\n- " ++ s) := by
  have ht : (TopicDatabase.initial.reset "Biology" 0).getTopic 0 =
      some (Topic.mk 0 "Biology" 0 [] [] [] [] true "" "") := by decide
  exact ⟨ht, (C5_appendKnowledge_accumulates (TopicDatabase.initial.reset "Biology" 0) 0
    _ ht [ "cells", "mitosis" ]).1⟩

/-- Witness for C6 at a concrete store and a concrete missing id. -/
theorem C6_missing_id_operations_witness :
    (∀ t ∈ (TopicDatabase.initial.reset "Biology" 0).topics, t.id ≠ 7) ∧
    (TopicDatabase.initial.reset "Biology" 0).getKnowledgeBase 7 = "" := by
  refine ⟨by decide, ?_⟩
  exact (C6_missing_id_operations (TopicDatabase.initial.reset "Biology" 0) 7
    (by decide)).2.2.2.2.2.2.2.1

/-! ### The per-turn pipeline

`analyzeTopicShift` (geminiService.ts), `AgentOrchestrator.processUserQuery`
(AgentOrchestrator.ts) and `StudySession.handleSendMessage` (the study-session
component) are modelled as one synchronous turn function over the store state,
with the outcomes of the external calls passed in as parameters. -/

/-- types.ts `AgentMode`. -/
inductive AgentMode where
  | TUTOR
  | RESEARCH
  | NOTEBOOK
deriving DecidableEq, Repr

/-- types.ts `TopicAnalysis`. -/
structure TopicAnalysis where
  isNewTopic : Bool
  topicName : String
deriving DecidableEq, Repr

/-- Result of `performResearch` as seen by the orchestrator (the function
itself already absorbs its failures into a degraded text and `[]`). -/
structure ResearchResult where
  text : String
  sources : List Source
deriving DecidableEq, Repr

/-- JS `s.substring(0, n)` over the character sequence. -/
def jsSubstring (s : String) (n : Nat) : String :=
  ⟨s.data.take n⟩

/-- JS `s.trim()`: strip whitespace from both ends (charwise model, since the
core `String.trim` is not kernel-reducible). -/
def jsTrim (s : String) : String :=
  ⟨((s.data.dropWhile Char.isWhitespace).reverse.dropWhile Char.isWhitespace).reverse⟩

/-- The default JSON used by `analyzeTopicShift` when `response.text` is
absent. -/
def fallbackAnalysisJson : String :=
  "\x7b\"isNewTopic\": false, \"topicName\": \"\"\x7d"

/-- `analyzeTopicShift(currentTopic, userMessage, recentHistory)`:
`callResult` is the outcome of the underlying model call (`.error` = the call
threw / rejected, `.ok txt` = it resolved with optional `response.text`), and
`parseJson` models `JSON.parse` (returning `none` when it would throw).  Both
exception paths land in the `catch` fallback
`{ isNewTopic: false, topicName: currentTopic }`. -/
def analyzeTopicShift (currentTopic : String)
    (callResult : Except Unit (Option String))
    (parseJson : String → Option TopicAnalysis) : TopicAnalysis :=
  match callResult with
  | .error _ => { isNewTopic := false, topicName := currentTopic }
  | .ok txt =>
      match parseJson (txt.getD fallbackAnalysisJson) with
      | some analysis => analysis
      | none => { isNewTopic := false, topicName := currentTopic }

/-- The pivot note `processUserQuery` prepends when it detects a shift. -/
def mkSystemInjection (analysis : TopicAnalysis) (currentTopicName : String) : String :=
  if analysis.isNewTopic = true ∧ analysis.topicName ≠ currentTopicName then
    "[SYSTEM NOTE: The user has switched context to the topic \"" ++
      analysis.topicName ++
      "\". Pivot your response to focus on this new topic immediately.]\n"
  else ""

/-- The researcher child-agent block of the parent prompt. -/
def researchAgentOutput (userText researchText : String) : String :=
  "\n      [DATA FROM RESEARCHER AGENT]:\n      The user asked about \"" ++ userText ++
    "\".\n      Here are the search findings:\n      " ++ researchText ++
    "\n      \n      Instructions: Synthesize this research into a helpful response. " ++
    "Cite the sources provided.\n      "

/-- Leading literal of the notebook child-agent block. -/
def notebookAgentHeader : String :=
  "\n        [DATA FROM NOTEBOOK AGENT]:\n        The user has provided the following " ++
    "personal notes/documents:\n        \"\"\"\n        "

/-- Trailing literal of the notebook child-agent block: closes the quoted
notes and instructs the parent to answer strictly from them and to say so
when the notes do not cover the question. -/
def notebookAgentInstructions (userText : String) : String :=
  " ... (content truncated for context)\n        \"\"\"\n        \n        " ++
    "Instructions: Answer the user\x27s question \"" ++ userText ++
    "\" strictly based on the provided notes above. If the answer isn\x27t in the notes, say so.\n        "

/-- The notebook child-agent block when notes are present: the notebook text
is truncated to its leading 20000 characters (`notebookContent.substring(0, 20000)`)
and wrapped in the header and the answer-strictly-from-notes instruction. -/
def notebookAgentOutput (notebookContent userText : String) : String :=
  notebookAgentHeader ++ jsSubstring notebookContent 20000 ++
    notebookAgentInstructions userText

/-- The notebook child-agent block when no notes were supplied. -/
def notebookEmptyOutput : String :=
  "[DATA FROM NOTEBOOK AGENT]: The user has not uploaded any notes yet. " ++
    "Remind them to paste their content to use this feature."

/-- Step 2 of `processUserQuery`: child-agent routing.  The notebook branch
reads the notebook of the store topic that is current at this point of the
turn. -/
def mkChildAgentOutput (mode : AgentMode) (db : TopicDatabase) (userText : String)
    (research : ResearchResult) : String × List Source :=
  match mode with
  | .RESEARCH => (researchAgentOutput userText research.text, research.sources)
  | .NOTEBOOK =>
      let notebookContent := ((db.getCurrentTopic).map Topic.notebookContent).getD ""
      if jsTrim notebookContent ≠ "" then
        (notebookAgentOutput notebookContent userText, [])
      else
        (notebookEmptyOutput, [])
  | .TUTOR => ("", [])

/-- Step 3 of `processUserQuery`: the composite prompt for the parent agent. -/
def mkFinalPrompt (systemInjection slideContext childOut userText : String) : String :=
  "\n    " ++ systemInjection ++ "\n    [Current Slide Context: \"" ++ slideContext ++
    "\"]\n    " ++ childOut ++ "\n    \n    User Query: " ++ userText ++ "\n    "

/-- The learner ChatMessage built by `handleSendMessage`. -/
def mkUserMessage (userText : String) : ChatMessage :=
  { role := .user, text := userText, sources := [] }

/-- The tutor ChatMessage built by `processUserQuery` (`sources` is attached
only when nonempty; the absent case is the empty list here). -/
def mkResponseMessage (respText : String) (sources : List Source) : ChatMessage :=
  { role := .model, text := respText,
    sources := if sources.length > 0 then sources else [] }

/-- The error bubble `handleSendMessage` shows in its `catch`. -/
def errorChatMessage : ChatMessage :=
  { role := .model,
    text := "Sorry, I encountered an error coordinating the agents.", sources := [] }

/-- Everything observable after one turn: the store, the orchestrator state
(`AgentOrchestrator.currentTopicName`), the component state
(`StudySession.currentTopicName`), the chat transcript, the prompt that was
sent to the conversation engine, and whether the turn ended in the error
path. -/
structure TurnResult where
  db : TopicDatabase
  orchName : String
  compName : String
  chatMessages : List ChatMessage
  prompt : String
  errored : Bool
deriving DecidableEq, Repr

/-- `handleSendMessage` persistence step: look up the current topic and, when
present, append the message to it (`topicDB.getCurrentTopic()?.id` followed by
the guarded `addMessageToTopic`). -/
def persistToCurrent (db : TopicDatabase) (message : ChatMessage) : TopicDatabase :=
  match (db.getCurrentTopic).map Topic.id with
  | some topicId => db.addMessageToTopic topicId message
  | none => db

/-- `handleSendMessage` step 3: on a detected shift, fetch-or-create the new
topic (non-main) and make it active. -/
def applyShiftToStore (db : TopicDatabase) (analysis : TopicAnalysis)
    (compName : String) (ts : Nat) : TopicDatabase :=
  if analysis.isNewTopic = true ∧ analysis.topicName ≠ compName then
    match db.getTopicByName analysis.topicName with
    | some t => db.setCurrentTopic t.id
    | none =>
        let created := db.createTopic analysis.topicName false ts
        created.2.setCurrentTopic created.1.id
  else db

/-- The synchronous prefix of `triggerBackgroundGeneration`: the job is fired
without `await` inside `processUserQuery`, so its body runs up to its first
`await` (the `generateMicroStudySet` call) before the turn continues.  That
prefix reads the current topic and — only when there is none — creates the
working topic (default `isMain = false`) and makes it active.  Everything
behind the `await` (the flashcard/quiz appends to the captured target id) is
detached with unspecified timing and stays outside the synchronous model. -/
def enrichSyncPrefix (db : TopicDatabase) (topicName : String) (ts : Nat) :
    TopicDatabase :=
  match db.getCurrentTopic with
  | some _ => db
  | none =>
      let t := db.createTopic topicName false ts
      t.2.setCurrentTopic t.1.id

/-- One user turn: `handleSendMessage` around `processUserQuery`.
`analysis` is the classifier result (already through `analyzeTopicShift`),
`research` the researcher outcome, `synthesis` the conversation-engine
outcome (`.error` = `sendMessage` threw), `tsBg` the `Date.now()` reading of
the creation site inside the background-generation prefix, and `ts` the one
of the component's topic-creation site. -/
def runTurn (db : TopicDatabase) (orchName compName : String)
    (chatMessages : List ChatMessage) (userText : String) (mode : AgentMode)
    (analysis : TopicAnalysis) (research : ResearchResult)
    (slideContext : String) (synthesis : Except Unit String) (ts tsBg : Nat) :
    TurnResult :=
  -- handleSendMessage: push the user message and persist it to the topic that
  -- is current *before* processing
  let userMsg := mkUserMessage userText
  let chat1 := chatMessages ++ [userMsg]
  let db1 := persistToCurrent db userMsg
  -- processUserQuery step 1b: orchestrator-side shift handling
  let systemInjection := mkSystemInjection analysis orchName
  let orch1 := if analysis.isNewTopic = true ∧ analysis.topicName ≠ orchName then
      analysis.topicName
    else orchName
  -- steps 2-3: child routing and prompt construction
  let child := mkChildAgentOutput mode db1 userText research
  let finalPrompt := mkFinalPrompt systemInjection slideContext child.1 userText
  -- step 4: the conversation engine
  match synthesis with
  | .error _ =>
      -- handleSendMessage catch: error bubble, no further store writes
      { db := db1, orchName := orch1, compName := compName,
        chatMessages := chat1 ++ [errorChatMessage], prompt := finalPrompt,
        errored := true }
  | .ok respText =>
      let respMsg := mkResponseMessage respText child.2
      -- processUserQuery step 5: the background job is fired without await,
      -- so its synchronous prefix runs on the post-shift working topic name
      -- before processUserQuery returns
      let dbB := enrichSyncPrefix db1 orch1 tsBg
      -- handleSendMessage step 3: component-side shift handling
      let db2 := applyShiftToStore dbB analysis compName ts
      let comp1 := if analysis.isNewTopic = true ∧ analysis.topicName ≠ compName then
          analysis.topicName
        else compName
      -- step 5: persist the tutor response to the *post-shift* active topic
      let db3 := persistToCurrent db2 respMsg
      { db := db3, orchName := orch1, compName := comp1,
        chatMessages := chat1 ++ [respMsg], prompt := finalPrompt,
        errored := false }

/-- C7: whenever the underlying classification call fails (it throws, or its
payload fails to parse), the classifier step returns exactly
`{ isNewTopic: false, topicName: currentTopic }`. -/
theorem C7_classifier_failure_fallback (currentTopic : String)
    (callResult : Except Unit (Option String))
    (parseJson : String → Option TopicAnalysis)
    (hfail : callResult = .error () ∨
      ∃ txt, callResult = .ok txt ∧ parseJson (txt.getD fallbackAnalysisJson) = none) :
    analyzeTopicShift currentTopic callResult parseJson =
      { isNewTopic := false, topicName := currentTopic } := by
  rcases hfail with h | ⟨txt, h, hparse⟩
  · rw [h]
    rfl
  · rw [h]
    unfold analyzeTopicShift
    dsimp only
    rw [hparse]

/-- Witness for C7: a thrown call and an unparseable payload both fall back. -/
theorem C7_classifier_failure_fallback_witness :
    ((Except.error () : Except Unit (Option String)) = .error () ∨
      ∃ txt, (Except.error () : Except Unit (Option String)) = .ok txt ∧
        (fun _ => (none : Option TopicAnalysis)) (txt.getD fallbackAnalysisJson) = none) ∧
    analyzeTopicShift "Thermodynamics" (.error ()) (fun _ => none) =
      { isNewTopic := false, topicName := "Thermodynamics" } :=
  ⟨Or.inl rfl,
    C7_classifier_failure_fallback "Thermodynamics" (.error ()) (fun _ => none)
      (Or.inl rfl)⟩

theorem find?_append_first_none {α : Type} (l₁ l₂ : List α) (p : α → Bool)
    (h : l₁.find? p = none) : (l₁ ++ l₂).find? p = l₂.find? p := by
  rw [List.find?_append, h, Option.none_or]

theorem find?_append_first_some {α : Type} (l₁ l₂ : List α) (p : α → Bool) (a : α)
    (h : l₁.find? p = some a) : (l₁ ++ l₂).find? p = some a := by
  rw [List.find?_append, h]
  rfl

namespace TopicDatabase

theorem getTopic_some_elim (db : TopicDatabase) (topicId : Nat) (t : Topic)
    (h : db.getTopic topicId = some t) : t.id = topicId ∧ t ∈ db.topics := by
  unfold getTopic at h
  exact ⟨by simpa using List.find?_some h, List.mem_of_find?_eq_some h⟩

theorem getTopic_of_getCurrentTopic (db : TopicDatabase) (cur : Topic)
    (h : db.getCurrentTopic = some cur) : db.getTopic cur.id = some cur := by
  unfold getCurrentTopic at h
  cases hc : db.currentTopicId with
  | none => rw [hc] at h; cases h
  | some i =>
      rw [hc] at h
      rw [(getTopic_some_elim db i cur h).1]
      exact h

theorem mem_of_getCurrentTopic (db : TopicDatabase) (cur : Topic)
    (h : db.getCurrentTopic = some cur) : cur ∈ db.topics :=
  (getTopic_some_elim db cur.id cur (getTopic_of_getCurrentTopic db cur h)).2

theorem getTopic_addMessage_other (db : TopicDatabase) (topicId otherId : Nat)
    (m : ChatMessage) (hne : otherId ≠ topicId) :
    (db.addMessageToTopic topicId m).getTopic otherId = db.getTopic otherId := by
  unfold addMessageToTopic
  rw [getTopic_updateTopic_ne db topicId otherId
    (fun t => { t with messages := t.messages ++ [m] }) (fun _ => rfl) hne]
  cases h : db.getTopic otherId with
  | none => rfl
  | some t =>
      have ht := (getTopic_some_elim db otherId t h).1
      simp [ht, hne]

theorem getTopic_addMessage_self (db : TopicDatabase) (topicId : Nat)
    (m : ChatMessage) :
    (db.addMessageToTopic topicId m).getTopic topicId =
      (db.getTopic topicId).map fun t => { t with messages := t.messages ++ [m] } := by
  unfold addMessageToTopic
  exact getTopic_updateTopic_self db topicId _ (fun _ => rfl)

theorem ids_updateTopic (db : TopicDatabase) (topicId : Nat) (f : Topic → Topic)
    (hf : ∀ t, (f t).id = t.id) :
    (db.updateTopic topicId f).topics.map Topic.id = db.topics.map Topic.id := by
  unfold updateTopic
  rw [List.map_map]
  refine List.map_congr_left fun t _ => ?_
  by_cases h : t.id = topicId <;> simp [h, hf]

theorem getTopicByName_updateTopic (db : TopicDatabase) (topicId : Nat)
    (f : Topic → Topic) (hf : ∀ t, (f t).name = t.name) (name : String) :
    (db.updateTopic topicId f).getTopicByName name =
      (db.getTopicByName name).map fun t => if t.id = topicId then f t else t := by
  unfold getTopicByName updateTopic
  exact find?_map_pred _ _ (fun t => by by_cases h : t.id = topicId <;> simp [h, hf]) _

theorem getTopic_setCurrentTopic (db : TopicDatabase) (i j : Nat) :
    (db.setCurrentTopic i).getTopic j = db.getTopic j := by
  unfold getTopic
  rw [db.topics_setCurrentTopic i]

theorem find?_id_of_nodup (l : List Topic) (hnd : (l.map Topic.id).Nodup)
    (t : Topic) (ht : t ∈ l) : l.find? (fun x => x.id = t.id) = some t := by
  induction l with
  | nil => cases ht
  | cons a rest ih =>
    by_cases ha : a.id = t.id
    · rw [List.find?_cons_of_pos _ (by simpa using ha)]
      rcases List.mem_cons.mp ht with h | h
      · rw [h]
      · exfalso
        have : a.id ∈ rest.map Topic.id := by
          rw [ha]
          exact List.mem_map_of_mem _ h
        exact (List.nodup_cons.mp hnd).1 this
    · rw [List.find?_cons_of_neg _ (by simpa using ha)]
      rcases List.mem_cons.mp ht with h | h
      · exact absurd (by rw [h]) ha
      · exact ih (List.nodup_cons.mp hnd).2 h

theorem getTopic_of_mem (db : TopicDatabase) (t : Topic)
    (hnd : (db.topics.map Topic.id).Nodup) (ht : t ∈ db.topics) :
    db.getTopic t.id = some t :=
  find?_id_of_nodup db.topics hnd t ht

end TopicDatabase

theorem TopicDatabase.getTopicByName_some_elim (db : TopicDatabase) (name : String)
    (t : Topic) (h : db.getTopicByName name = some t) :
    strToLower t.name = strToLower name ∧ t ∈ db.topics := by
  unfold TopicDatabase.getTopicByName at h
  exact ⟨by simpa using List.find?_some h, List.mem_of_find?_eq_some h⟩

theorem TopicDatabase.getTopicByName_addMessage (db : TopicDatabase) (topicId : Nat)
    (m : ChatMessage) (name : String) :
    (db.addMessageToTopic topicId m).getTopicByName name =
      (db.getTopicByName name).map fun t =>
        if t.id = topicId then { t with messages := t.messages ++ [m] } else t := by
  unfold TopicDatabase.addMessageToTopic
  exact TopicDatabase.getTopicByName_updateTopic db topicId
    (fun t => { t with messages := t.messages ++ [m] }) (fun _ => rfl) name

theorem TopicDatabase.mem_updateTopic_elim (db : TopicDatabase) (topicId : Nat)
    (f : Topic → Topic) (x : Topic) (hx : x ∈ (db.updateTopic topicId f).topics) :
    ∃ y ∈ db.topics, x = if y.id = topicId then f y else y := by
  unfold TopicDatabase.updateTopic at hx
  obtain ⟨y, hy, hxy⟩ := List.mem_map.mp hx
  exact ⟨y, hy, hxy.symm⟩

theorem notebook_persistToCurrent (db : TopicDatabase) (m : ChatMessage) :
    (((persistToCurrent db m).getCurrentTopic).map Topic.notebookContent) =
      ((db.getCurrentTopic).map Topic.notebookContent) := by
  unfold persistToCurrent
  cases hcur : db.getCurrentTopic with
  | none =>
      show (db.getCurrentTopic).map Topic.notebookContent =
        Option.map Topic.notebookContent none
      rw [hcur]
  | some cur =>
      show ((db.addMessageToTopic cur.id m).getCurrentTopic).map Topic.notebookContent =
        Option.map Topic.notebookContent (some cur)
      have hget : db.getTopic cur.id = some cur :=
        db.getTopic_of_getCurrentTopic cur hcur
      unfold TopicDatabase.getCurrentTopic at hcur ⊢
      cases hc : db.currentTopicId with
      | none => rw [hc] at hcur; cases hcur
      | some i =>
          rw [hc] at hcur
          have hcid : cur.id = i := (TopicDatabase.getTopic_some_elim db i cur hcur).1
          have hcc : (db.addMessageToTopic cur.id m).currentTopicId = some i := hc
          rw [hcc]
          dsimp only
          rw [← hcid, TopicDatabase.getTopic_addMessage_self db cur.id m, hget]
          rfl

/-- When the store has a current topic, the synchronous prefix of the
background job does nothing. -/
theorem enrichSyncPrefix_of_current (db : TopicDatabase) (topicName : String)
    (ts : Nat) (t : Topic) (h : db.getCurrentTopic = some t) :
    enrichSyncPrefix db topicName ts = db := by
  unfold enrichSyncPrefix
  rw [h]

theorem TopicDatabase.getCurrentTopic_setCurrentTopic_of_has (db : TopicDatabase)
    (i : Nat) (h : db.hasTopic i = true) :
    (db.setCurrentTopic i).getCurrentTopic = db.getTopic i := by
  unfold TopicDatabase.setCurrentTopic
  rw [if_pos h]
  rfl

theorem TopicDatabase.getCurrentTopic_addMessage_of (db : TopicDatabase) (i : Nat)
    (m : ChatMessage) (t : Topic) (h : db.getCurrentTopic = some t) (hid : t.id = i) :
    (db.addMessageToTopic i m).getCurrentTopic =
      some { t with messages := t.messages ++ [m] } := by
  unfold TopicDatabase.getCurrentTopic at h ⊢
  cases hc : db.currentTopicId with
  | none => rw [hc] at h; cases h
  | some j =>
      rw [hc] at h
      have h' : db.getTopic j = some t := h
      have hcc : (db.addMessageToTopic i m).currentTopicId = some j := hc
      rw [hcc]
      have hj : t.id = j := (TopicDatabase.getTopic_some_elim db j t h').1
      have hgt : db.getTopic t.id = some t := by
        rw [hj]
        exact h'
      subst hid
      show (db.addMessageToTopic t.id m).getTopic j = _
      rw [← hj, TopicDatabase.getTopic_addMessage_self, hgt]
      rfl

/-- The prompt sent to the conversation engine during a turn. -/
theorem runTurn_prompt (db : TopicDatabase) (orchName compName : String)
    (chat : List ChatMessage) (userText : String) (mode : AgentMode)
    (analysis : TopicAnalysis) (research : ResearchResult) (slideContext : String)
    (synthesis : Except Unit String) (ts tsBg : Nat) :
    (runTurn db orchName compName chat userText mode analysis research slideContext
        synthesis ts tsBg).prompt =
      mkFinalPrompt (mkSystemInjection analysis orchName) slideContext
        (mkChildAgentOutput mode (persistToCurrent db (mkUserMessage userText))
          userText research).1 userText := by
  cases synthesis <;> rfl

/-- C8: when the conversation-engine call fails, the turn ends in the error
path (error bubble appended to the chat), the learner message persisted
before the failure stays in the pre-turn active topic, and no tutor response
is appended to any topic: the store equals the pre-turn store plus exactly
that one learner message. -/
theorem C8_synthesis_failure (db : TopicDatabase) (orchName compName : String)
    (chat : List ChatMessage) (userText : String) (mode : AgentMode)
    (analysis : TopicAnalysis) (research : ResearchResult) (slideContext : String)
    (ts tsBg : Nat) (cur : Topic) (hcur : db.getCurrentTopic = some cur) :
    (runTurn db orchName compName chat userText mode analysis research slideContext
        (.error ()) ts tsBg).errored = true ∧
    (runTurn db orchName compName chat userText mode analysis research slideContext
        (.error ()) ts tsBg).chatMessages =
      chat ++ [mkUserMessage userText, errorChatMessage] ∧
    (runTurn db orchName compName chat userText mode analysis research slideContext
        (.error ()) ts tsBg).db =
      db.addMessageToTopic cur.id (mkUserMessage userText) ∧
    (runTurn db orchName compName chat userText mode analysis research slideContext
        (.error ()) ts tsBg).db.getTopic cur.id =
      some { cur with messages := cur.messages ++ [mkUserMessage userText] } ∧
    (∀ otherId, otherId ≠ cur.id →
      (runTurn db orchName compName chat userText mode analysis research slideContext
          (.error ()) ts tsBg).db.getTopic otherId = db.getTopic otherId) := by
  have hdb1 : persistToCurrent db (mkUserMessage userText) =
      db.addMessageToTopic cur.id (mkUserMessage userText) := by
    unfold persistToCurrent
    rw [hcur]
    rfl
  have hdb : (runTurn db orchName compName chat userText mode analysis research
      slideContext (.error ()) ts tsBg).db =
      db.addMessageToTopic cur.id (mkUserMessage userText) := hdb1
  refine ⟨rfl, ?_, hdb, ?_, ?_⟩
  · show (chat ++ [mkUserMessage userText]) ++ [errorChatMessage] = _
    rw [List.append_assoc]
    rfl
  · rw [hdb, TopicDatabase.getTopic_addMessage_self,
      db.getTopic_of_getCurrentTopic cur hcur]
    rfl
  · intro otherId hne
    rw [hdb, TopicDatabase.getTopic_addMessage_other db cur.id otherId _ hne]

/-- Witness for C8 on a fresh "History" store. -/
theorem C8_synthesis_failure_witness :
    ((TopicDatabase.initial.reset "History" 0).getCurrentTopic =
      some (Topic.mk 0 "History" 0 [] [] [] [] true "" "")) ∧
    (runTurn (TopicDatabase.initial.reset "History" 0) "History" "History" []
        "tell me about biology" AgentMode.TUTOR ⟨true, "Biology"⟩ ⟨"", []⟩ "Slide 1"
        (.error ()) 1 1).errored = true := by
  have hcur : (TopicDatabase.initial.reset "History" 0).getCurrentTopic =
      some (Topic.mk 0 "History" 0 [] [] [] [] true "" "") := by decide
  exact ⟨hcur, (C8_synthesis_failure (TopicDatabase.initial.reset "History" 0)
    "History" "History" [] "tell me about biology" AgentMode.TUTOR
    ⟨true, "Biology"⟩ ⟨"", []⟩ "Slide 1" 1 1 _ hcur).1⟩

/-- C10: when the classifier flags a new topic whose name equals the current
topic name, a turn on a store with an active topic shifts nothing: no pivot
note is injected (the prompt is built with an empty injection), the
orchestrator keeps its topic name, and the store's active-topic pointer is
untouched. -/
theorem C10_same_name_no_shift (db : TopicDatabase) (orchName : String)
    (chat : List ChatMessage) (userText : String) (mode : AgentMode)
    (analysis : TopicAnalysis) (research : ResearchResult) (slideContext : String)
    (respText : String) (ts tsBg : Nat) (cur : Topic)
    (hcur : db.getCurrentTopic = some cur)
    (_hnew : analysis.isNewTopic = true) (hname : analysis.topicName = orchName) :
    mkSystemInjection analysis orchName = "" ∧
    (runTurn db orchName orchName chat userText mode analysis research slideContext
        (.ok respText) ts tsBg).orchName = orchName ∧
    (runTurn db orchName orchName chat userText mode analysis research slideContext
        (.ok respText) ts tsBg).db.currentTopicId = db.currentTopicId ∧
    (∃ childOut,
      (runTurn db orchName orchName chat userText mode analysis research slideContext
          (.ok respText) ts tsBg).prompt =
        mkFinalPrompt "" slideContext childOut userText) := by
  have hguard : ¬(analysis.isNewTopic = true ∧ analysis.topicName ≠ orchName) :=
    fun h => h.2 hname
  have hinj : mkSystemInjection analysis orchName = "" := by
    unfold mkSystemInjection
    rw [if_neg hguard]
  have hpersist : ∀ (d : TopicDatabase) (m : ChatMessage),
      (persistToCurrent d m).currentTopicId = d.currentTopicId := by
    intro d m
    unfold persistToCurrent
    cases (d.getCurrentTopic).map Topic.id <;> rfl
  have hdb1 : persistToCurrent db (mkUserMessage userText) =
      db.addMessageToTopic cur.id (mkUserMessage userText) := by
    unfold persistToCurrent
    rw [hcur]
    rfl
  have hcur1 : (persistToCurrent db (mkUserMessage userText)).getCurrentTopic =
      some { cur with messages := cur.messages ++ [mkUserMessage userText] } := by
    rw [hdb1]
    exact TopicDatabase.getCurrentTopic_addMessage_of db cur.id _ cur hcur rfl
  have henrich : ∀ (topicName : String) (t2 : Nat),
      enrichSyncPrefix (persistToCurrent db (mkUserMessage userText)) topicName t2 =
        persistToCurrent db (mkUserMessage userText) :=
    fun topicName t2 => enrichSyncPrefix_of_current _ topicName t2 _ hcur1
  refine ⟨hinj, ?_, ?_, ?_⟩
  · show (if analysis.isNewTopic = true ∧ analysis.topicName ≠ orchName then
      analysis.topicName else orchName) = orchName
    rw [if_neg hguard]
  · show (persistToCurrent (applyShiftToStore
        (enrichSyncPrefix (persistToCurrent db (mkUserMessage userText)) _ tsBg)
        analysis orchName ts) _).currentTopicId = db.currentTopicId
    rw [hpersist, henrich]
    unfold applyShiftToStore
    rw [if_neg hguard, hpersist]
  · refine ⟨(mkChildAgentOutput mode (persistToCurrent db (mkUserMessage userText))
      userText research).1, ?_⟩
    rw [runTurn_prompt, hinj]

/-- Witness for C10: classifier says "new topic: History" while "History" is
already active. -/
theorem C10_same_name_no_shift_witness :
    ((TopicDatabase.initial.reset "History" 0).getCurrentTopic =
      some (Topic.mk 0 "History" 0 [] [] [] [] true "" "")) ∧
    ((TopicAnalysis.mk true "History").isNewTopic = true ∧
      (TopicAnalysis.mk true "History").topicName = "History") ∧
    (runTurn (TopicDatabase.initial.reset "History" 0) "History" "History" []
        "more please" AgentMode.TUTOR ⟨true, "History"⟩ ⟨"", []⟩ "Slide 1"
        (.ok "sure") 1 1).db.currentTopicId =
      (TopicDatabase.initial.reset "History" 0).currentTopicId := by
  have hcur : (TopicDatabase.initial.reset "History" 0).getCurrentTopic =
      some (Topic.mk 0 "History" 0 [] [] [] [] true "" "") := by decide
  refine ⟨hcur, ⟨rfl, rfl⟩, ?_⟩
  exact (C10_same_name_no_shift (TopicDatabase.initial.reset "History" 0) "History"
    [] "more please" AgentMode.TUTOR ⟨true, "History"⟩ ⟨"", []⟩ "Slide 1" "sure" 1 1
    _ hcur rfl rfl).2.2.1

/-- C9: in Notebook mode the child context is taken from the *active* topic:
with empty-or-whitespace notes the prompt embeds the fixed
supply-your-notes text; otherwise it embeds the notes truncated to the
leading 20000-character budget together with the strictly-from-notes
instruction; the truncation never exceeds the budget. -/
theorem C9_notebook_context (db : TopicDatabase) (orchName compName : String)
    (chat : List ChatMessage) (userText : String) (analysis : TopicAnalysis)
    (research : ResearchResult) (slideContext : String)
    (synthesis : Except Unit String) (ts tsBg : Nat) (cur : Topic)
    (hcur : db.getCurrentTopic = some cur) :
    (jsTrim cur.notebookContent = "" →
      (runTurn db orchName compName chat userText AgentMode.NOTEBOOK analysis
          research slideContext synthesis ts tsBg).prompt =
        mkFinalPrompt (mkSystemInjection analysis orchName) slideContext
          notebookEmptyOutput userText) ∧
    (jsTrim cur.notebookContent ≠ "" →
      (runTurn db orchName compName chat userText AgentMode.NOTEBOOK analysis
          research slideContext synthesis ts tsBg).prompt =
        mkFinalPrompt (mkSystemInjection analysis orchName) slideContext
          (notebookAgentOutput cur.notebookContent userText) userText) ∧
    (jsSubstring cur.notebookContent 20000).length ≤ 20000 ∧
    (∃ pre post, notebookAgentOutput cur.notebookContent userText =
      pre ++ jsSubstring cur.notebookContent 20000 ++ post) := by
  have hnb : ((persistToCurrent db (mkUserMessage userText)).getCurrentTopic).map
      Topic.notebookContent = some cur.notebookContent := by
    rw [notebook_persistToCurrent, hcur]
    rfl
  have hchild : mkChildAgentOutput AgentMode.NOTEBOOK
      (persistToCurrent db (mkUserMessage userText)) userText research =
      (if jsTrim cur.notebookContent ≠ "" then
        (notebookAgentOutput cur.notebookContent userText, ([] : List Source))
      else (notebookEmptyOutput, [])) := by
    unfold mkChildAgentOutput
    rw [hnb]
    rfl
  refine ⟨?_, ?_, ?_, ?_⟩
  · intro h
    rw [runTurn_prompt, hchild, if_neg (by rw [h]; simp)]
  · intro h
    rw [runTurn_prompt, hchild, if_pos h]
  · show (cur.notebookContent.data.take 20000).length ≤ 20000
    rw [List.length_take]
    exact Nat.min_le_left _ _
  · exact ⟨notebookAgentHeader, notebookAgentInstructions userText, rfl⟩

/-- Witness for C9: a "History" store whose active topic holds notes. -/
theorem C9_notebook_context_witness :
    (((TopicDatabase.initial.reset "History" 0).updateNotebookContent 0
        "my biology notes").getCurrentTopic =
      some (Topic.mk 0 "History" 0 [] [] [] [] true "my biology notes" "")) ∧
    jsTrim "my biology notes" ≠ "" ∧
    (runTurn ((TopicDatabase.initial.reset "History" 0).updateNotebookContent 0
        "my biology notes") "History" "History" [] "what are cells?"
        AgentMode.NOTEBOOK ⟨false, "History"⟩ ⟨"", []⟩ "Slide 1"
        (.ok "answer") 1 1).prompt =
      mkFinalPrompt (mkSystemInjection ⟨false, "History"⟩ "History") "Slide 1"
        (notebookAgentOutput "my biology notes" "what are cells?") "what are cells?" := by
  have hcur : ((TopicDatabase.initial.reset "History" 0).updateNotebookContent 0
      "my biology notes").getCurrentTopic =
      some (Topic.mk 0 "History" 0 [] [] [] [] true "my biology notes" "") := by decide
  have hne : jsTrim "my biology notes" ≠ "" := by decide
  exact ⟨hcur, hne,
    (C9_notebook_context ((TopicDatabase.initial.reset "History" 0).updateNotebookContent
        0 "my biology notes") "History" "History" [] "what are cells?"
      ⟨false, "History"⟩ ⟨"", []⟩ "Slide 1" (.ok "answer") 1 1 _ hcur).2.1 hne⟩

/-- C1: on a genuine classifier shift (new-topic flag set, reported name
differing from the current topic, and not a case-variant of the current
topic's name), the learner message lands in the message list of the topic
that was active before the turn, the tutor response lands in the message list
of the topic named by the classifier — freshly created non-main and empty
when absent — which is the active topic after the turn, whose name is the new
subject. -/
theorem C1_shift_cross_topic_persistence (db : TopicDatabase)
    (orchName compName : String) (chat : List ChatMessage) (userText : String)
    (mode : AgentMode) (analysis : TopicAnalysis) (research : ResearchResult)
    (slideContext : String) (respText : String) (ts tsBg : Nat) (cur : Topic)
    (hcur : db.getCurrentTopic = some cur)
    (hids : (db.topics.map Topic.id).Nodup)
    (hfresh : ∀ t ∈ db.topics, t.id < db.nextId)
    (hnew : analysis.isNewTopic = true)
    (hdiff : analysis.topicName ≠ compName)
    (hnotcur : ∀ t, db.getTopicByName analysis.topicName = some t → t.id ≠ cur.id) :
    (runTurn db orchName compName chat userText mode analysis research slideContext
        (.ok respText) ts tsBg).db.getTopic cur.id =
      some { cur with messages := cur.messages ++ [mkUserMessage userText] } ∧
    (∃ active pre,
      (runTurn db orchName compName chat userText mode analysis research slideContext
          (.ok respText) ts tsBg).db.getCurrentTopic = some active ∧
      strToLower active.name = strToLower analysis.topicName ∧
      active.messages = pre ++ [mkResponseMessage respText
        (mkChildAgentOutput mode (persistToCurrent db (mkUserMessage userText))
          userText research).2] ∧
      (db.getTopicByName analysis.topicName = none →
        active.name = analysis.topicName ∧ active.isMainTopic = false ∧ pre = [])) ∧
    (runTurn db orchName compName chat userText mode analysis research slideContext
        (.ok respText) ts tsBg).compName = analysis.topicName := by
  have hguard : analysis.isNewTopic = true ∧ analysis.topicName ≠ compName :=
    ⟨hnew, hdiff⟩
  have hdb1 : persistToCurrent db (mkUserMessage userText) =
      db.addMessageToTopic cur.id (mkUserMessage userText) := by
    unfold persistToCurrent
    rw [hcur]
    rfl
  have hget1 : (db.addMessageToTopic cur.id (mkUserMessage userText)).getTopic cur.id =
      some { cur with messages := cur.messages ++ [mkUserMessage userText] } := by
    rw [TopicDatabase.getTopic_addMessage_self, db.getTopic_of_getCurrentTopic cur hcur]
    rfl
  have hcomp : (runTurn db orchName compName chat userText mode analysis research
      slideContext (.ok respText) ts tsBg).compName = analysis.topicName := by
    show (if analysis.isNewTopic = true ∧ analysis.topicName ≠ compName then
      analysis.topicName else compName) = analysis.topicName
    rw [if_pos hguard]
  have hrdb : (runTurn db orchName compName chat userText mode analysis research
      slideContext (.ok respText) ts tsBg).db =
      persistToCurrent
        (applyShiftToStore
          (enrichSyncPrefix (persistToCurrent db (mkUserMessage userText))
            (if analysis.isNewTopic = true ∧ analysis.topicName ≠ orchName then
              analysis.topicName else orchName) tsBg)
          analysis compName ts)
        (mkResponseMessage respText
          (mkChildAgentOutput mode (persistToCurrent db (mkUserMessage userText))
            userText research).2) := rfl
  have hcur1 : (db.addMessageToTopic cur.id (mkUserMessage userText)).getCurrentTopic =
      some { cur with messages := cur.messages ++ [mkUserMessage userText] } :=
    TopicDatabase.getCurrentTopic_addMessage_of db cur.id _ cur hcur rfl
  have henrich : ∀ (topicName : String) (t2 : Nat),
      enrichSyncPrefix (db.addMessageToTopic cur.id (mkUserMessage userText))
        topicName t2 = db.addMessageToTopic cur.id (mkUserMessage userText) :=
    fun topicName t2 => enrichSyncPrefix_of_current _ topicName t2 _ hcur1
  rw [hrdb, hdb1, henrich]
  cases hfind : db.getTopicByName analysis.topicName with
  | some t =>
      have htne : t.id ≠ cur.id := hnotcur t hfind
      obtain ⟨htname, htmem⟩ := TopicDatabase.getTopicByName_some_elim db _ t hfind
      have hbn1 : (db.addMessageToTopic cur.id
          (mkUserMessage userText)).getTopicByName analysis.topicName = some t := by
        rw [TopicDatabase.getTopicByName_addMessage, hfind, Option.map_some']
        rw [if_neg htne]
      have hshift : applyShiftToStore
          (db.addMessageToTopic cur.id (mkUserMessage userText)) analysis compName ts =
          (db.addMessageToTopic cur.id (mkUserMessage userText)).setCurrentTopic t.id := by
        unfold applyShiftToStore
        rw [if_pos hguard, hbn1]
      have ht1mem : t ∈ (db.addMessageToTopic cur.id (mkUserMessage userText)).topics :=
        (TopicDatabase.getTopicByName_some_elim _ _ t hbn1).2
      have hhas : (db.addMessageToTopic cur.id (mkUserMessage userText)).hasTopic t.id
          = true := by
        unfold TopicDatabase.hasTopic
        rw [List.any_eq_true]
        exact ⟨t, ht1mem, by simp⟩
      have hget_t : (db.addMessageToTopic cur.id (mkUserMessage userText)).getTopic t.id
          = some t := by
        rw [TopicDatabase.getTopic_addMessage_other db cur.id t.id _ htne]
        exact db.getTopic_of_mem t hids htmem
      have hcur2 : ((db.addMessageToTopic cur.id
          (mkUserMessage userText)).setCurrentTopic t.id).getCurrentTopic = some t := by
        rw [TopicDatabase.getCurrentTopic_setCurrentTopic_of_has _ _ hhas]
        exact hget_t
      have hpersist2 : persistToCurrent
          ((db.addMessageToTopic cur.id (mkUserMessage userText)).setCurrentTopic t.id)
          (mkResponseMessage respText
            (mkChildAgentOutput mode (db.addMessageToTopic cur.id
              (mkUserMessage userText)) userText research).2) =
          ((db.addMessageToTopic cur.id (mkUserMessage userText)).setCurrentTopic
            t.id).addMessageToTopic t.id
            (mkResponseMessage respText
              (mkChildAgentOutput mode (db.addMessageToTopic cur.id
                (mkUserMessage userText)) userText research).2) := by
        unfold persistToCurrent
        rw [hcur2]
        rfl
      rw [hshift, hpersist2]
      refine ⟨?_, ?_, hcomp⟩
      · rw [TopicDatabase.getTopic_addMessage_other _ t.id cur.id _ (Ne.symm htne),
          TopicDatabase.getTopic_setCurrentTopic]
        exact hget1
      · exact ⟨_, t.messages,
          TopicDatabase.getCurrentTopic_addMessage_of _ t.id _ t hcur2 rfl,
          htname, rfl, fun hnone => absurd hnone (Option.some_ne_none t)⟩
  | none =>
      have hbn1 : (db.addMessageToTopic cur.id
          (mkUserMessage userText)).getTopicByName analysis.topicName = none := by
        rw [TopicDatabase.getTopicByName_addMessage, hfind]
        rfl
      have hcreate : (db.addMessageToTopic cur.id (mkUserMessage userText)).createTopic
          analysis.topicName false ts =
          ((⟨db.nextId, analysis.topicName, ts, [], [], [], [], false, "", ""⟩ : Topic),
           { topics := (db.addMessageToTopic cur.id (mkUserMessage userText)).topics ++
               [(⟨db.nextId, analysis.topicName, ts, [], [], [], [], false, "", ""⟩ : Topic)],
             currentTopicId := db.currentTopicId,
             mainTopicName := db.mainTopicName,
             nextId := db.nextId + 1 }) := by
        unfold TopicDatabase.createTopic
        rw [show (db.addMessageToTopic cur.id (mkUserMessage userText)).topics.find?
          (fun t => strToLower t.name = strToLower analysis.topicName) = none from hbn1]
        rfl
      have hshift : applyShiftToStore
          (db.addMessageToTopic cur.id (mkUserMessage userText)) analysis compName ts =
          ((db.addMessageToTopic cur.id (mkUserMessage userText)).createTopic
            analysis.topicName false ts).2.setCurrentTopic
          ((db.addMessageToTopic cur.id (mkUserMessage userText)).createTopic
            analysis.topicName false ts).1.id := by
        unfold applyShiftToStore
        rw [if_pos hguard, hbn1]
      have hfresh1 : ∀ x ∈ (db.addMessageToTopic cur.id (mkUserMessage userText)).topics,
          x.id < db.nextId := by
        intro x hx
        obtain ⟨y, hy, hxy⟩ := TopicDatabase.mem_updateTopic_elim db cur.id _ x hx
        have hyid : x.id = y.id := by
          rw [hxy]
          by_cases h : y.id = cur.id <;> simp [h]
        rw [hyid]
        exact hfresh y hy
      have hfind_id_none : (db.addMessageToTopic cur.id
          (mkUserMessage userText)).topics.find? (fun x => x.id = db.nextId) = none := by
        rw [List.find?_eq_none]
        intro x hx
        have := hfresh1 x hx
        simp only [decide_eq_true_eq]
        omega
      have hhasC : ((db.addMessageToTopic cur.id (mkUserMessage userText)).createTopic
          analysis.topicName false ts).2.hasTopic
          ((db.addMessageToTopic cur.id (mkUserMessage userText)).createTopic
            analysis.topicName false ts).1.id = true := by
        rw [hcreate]
        show ((db.addMessageToTopic cur.id (mkUserMessage userText)).topics ++
          [(⟨db.nextId, analysis.topicName, ts, [], [], [], [], false, "", ""⟩ : Topic)]).any
            (fun x => x.id = db.nextId) = true
        rw [List.any_eq_true]
        exact ⟨(⟨db.nextId, analysis.topicName, ts, [], [], [], [], false, "", ""⟩ : Topic),
          List.mem_append_right _ (List.mem_singleton.mpr rfl), by simp⟩
      have hgetN : ((db.addMessageToTopic cur.id (mkUserMessage userText)).createTopic
          analysis.topicName false ts).2.getTopic
          ((db.addMessageToTopic cur.id (mkUserMessage userText)).createTopic
            analysis.topicName false ts).1.id =
          some (⟨db.nextId, analysis.topicName, ts, [], [], [], [], false, "", ""⟩ : Topic) := by
        rw [hcreate]
        show ((db.addMessageToTopic cur.id (mkUserMessage userText)).topics ++
          [(⟨db.nextId, analysis.topicName, ts, [], [], [], [], false, "", ""⟩ : Topic)]).find?
            (fun x => x.id = db.nextId) = _
        rw [find?_append_first_none _ _ _ hfind_id_none]
        rw [List.find?_cons_of_pos _ (by simp)]
      have hcurN : (((db.addMessageToTopic cur.id (mkUserMessage userText)).createTopic
          analysis.topicName false ts).2.setCurrentTopic
          ((db.addMessageToTopic cur.id (mkUserMessage userText)).createTopic
            analysis.topicName false ts).1.id).getCurrentTopic =
          some (⟨db.nextId, analysis.topicName, ts, [], [], [], [], false, "", ""⟩ : Topic) := by
        rw [TopicDatabase.getCurrentTopic_setCurrentTopic_of_has _ _ hhasC]
        exact hgetN
      have hcurlt : cur.id < db.nextId := hfresh cur (db.mem_of_getCurrentTopic cur hcur)
      have hpersistN : persistToCurrent
          (((db.addMessageToTopic cur.id (mkUserMessage userText)).createTopic
            analysis.topicName false ts).2.setCurrentTopic
            ((db.addMessageToTopic cur.id (mkUserMessage userText)).createTopic
              analysis.topicName false ts).1.id)
          (mkResponseMessage respText
            (mkChildAgentOutput mode (db.addMessageToTopic cur.id
              (mkUserMessage userText)) userText research).2) =
          (((db.addMessageToTopic cur.id (mkUserMessage userText)).createTopic
            analysis.topicName false ts).2.setCurrentTopic
            ((db.addMessageToTopic cur.id (mkUserMessage userText)).createTopic
              analysis.topicName false ts).1.id).addMessageToTopic db.nextId
            (mkResponseMessage respText
              (mkChildAgentOutput mode (db.addMessageToTopic cur.id
                (mkUserMessage userText)) userText research).2) := by
        unfold persistToCurrent
        rw [hcurN]
        rfl
      rw [hshift, hpersistN]
      refine ⟨?_, ?_, hcomp⟩
      · rw [TopicDatabase.getTopic_addMessage_other _ db.nextId cur.id _
          (Nat.ne_of_lt hcurlt), TopicDatabase.getTopic_setCurrentTopic, hcreate]
        show ((db.addMessageToTopic cur.id (mkUserMessage userText)).topics ++
          [(⟨db.nextId, analysis.topicName, ts, [], [], [], [], false, "", ""⟩ : Topic)]).find?
            (fun x => x.id = cur.id) = _
        exact find?_append_first_some _ _ _ _ hget1
      · refine ⟨_, [],
          TopicDatabase.getCurrentTopic_addMessage_of _ db.nextId _
            (⟨db.nextId, analysis.topicName, ts, [], [], [], [], false, "", ""⟩ : Topic)
            hcurN rfl,
          rfl, rfl, fun _ => ⟨rfl, rfl, rfl⟩⟩

/-- Witness for C1: a scripted shift from "History" to "Biology" on a fresh
store. -/
theorem C1_shift_cross_topic_persistence_witness :
    ((TopicDatabase.initial.reset "History" 0).getCurrentTopic =
      some (Topic.mk 0 "History" 0 [] [] [] [] true "" "")) ∧
    ("Biology" : String) ≠ "History" ∧
    (runTurn (TopicDatabase.initial.reset "History" 0) "History" "History" []
        "what is mitosis" AgentMode.TUTOR ⟨true, "Biology"⟩ ⟨"", []⟩ "Slide 1"
        (.ok "Mitosis is cell division.") 1 1).compName = "Biology" := by
  have hcur : (TopicDatabase.initial.reset "History" 0).getCurrentTopic =
      some (Topic.mk 0 "History" 0 [] [] [] [] true "" "") := by decide
  refine ⟨hcur, by decide, ?_⟩
  exact (C1_shift_cross_topic_persistence (TopicDatabase.initial.reset "History" 0)
    "History" "History" [] "what is mitosis" AgentMode.TUTOR ⟨true, "Biology"⟩
    ⟨"", []⟩ "Slide 1" "Mitosis is cell division." 1 1 _ hcur (by decide) (by decide)
    rfl (by decide)
    (fun t h => by
      rw [show (TopicDatabase.initial.reset "History" 0).getTopicByName "Biology" =
        none from by decide] at h
      cases h)).2.2

end VibeTutor
